import Mathlib

/-!
# Optimized type-test stubs on x64: the fallback tail

A verification development for `runtime/vm/compiler/type_testing_stubs_x64.cc`:

```
void TypeTestingStubGenerator::BuildOptimizedTypeTestStub(
    compiler::Assembler* assembler,
    compiler::UnresolvedPcRelativeCalls* unresolved_calls,
    const Code& slow_type_test_stub,
    HierarchyInfo* hi,
    const Type& type,
    const Class& type_class) {
  BuildOptimizedTypeTestStubFastCases(assembler, hi, type, type_class);
  __ jmp(compiler::Address(
      THR, compiler::target::Thread::slow_type_test_entry_point_offset()));
}
```

The development has three layers.

* The objects the function is called on and the function itself, transcribed
  from the source.  `BuildOptimizedTypeTestStubFastCases` and
  `Thread::slow_type_test_entry_point_offset()` are called by the source and
  defined elsewhere, so the transcription takes both as arguments; the
  declarations of the argument types are outside the source as well.
* A small x64 machine on which an emitted instruction sequence can be run.
* The fast-path planner and emitter as the specification describes them,
  used where a statement is about the fast cases themselves.
-/

namespace dart

/-! ## Objects of the VM that the stub generator is called on -/

/-- Modelled from the spec: the `Class` of the source, whose declaration is
not in the source file.  A class is known to the stub generator by its unique
class identifier. -/
structure Class where
  id : Nat
deriving DecidableEq, Repr

/-- Modelled from the spec: the `Type` of the source, whose declaration is not
in the source file: the declaring class, the nullability and the ordered type
arguments (empty for a type that is not generic). -/
inductive DartType where
  | mk (type_class : Class) (nullable : Bool) (arguments : List DartType)

/-- The declaring class of a type. -/
def DartType.type_class : DartType → Class
  | .mk c _ _ => c

/-- Whether the type admits `null`. -/
def DartType.nullable : DartType → Bool
  | .mk _ n _ => n

/-- The type arguments of a type. -/
def DartType.arguments : DartType → List DartType
  | .mk _ _ a => a

/-- Modelled from the spec: the `HierarchyInfo` of the source, whose
declaration is not in the source file, with the two queries the stub compiler
makes of the hierarchy oracle: the contiguous class-identifier ranges of the
subclasses and implementers of a class, and whether the class is sealed. -/
structure HierarchyInfo where
  classIdRanges : Class → List (Nat × Nat)
  isSealed : Class → Bool

/-- Modelled from the spec: registers of the x64 target, declared outside the
source file.  `THR` is the register the source names: it holds the current
thread; `RSP` is the stack pointer; the others are general registers. -/
inductive Register where
  | RAX | RBX | RCX | RDX | RSP | THR
deriving DecidableEq, Repr

/-- Modelled from the spec: the `compiler::Address(base, disp)` of the source,
declared outside the source file: a memory operand, the word at the address
held in `base` plus `disp`. -/
structure Address where
  base : Register
  disp : Nat
deriving DecidableEq, Repr

/-- Modelled from the spec: the conditions of a conditional branch (unsigned
comparisons), declared outside the source file. -/
inductive Condition where
  | EQUAL | NOT_EQUAL | BELOW | BELOW_EQUAL
deriving DecidableEq, Repr

/-- Modelled from the spec: the constant objects that emitted code can name,
`null` and a canonical type (the object model is not in the source file). -/
inductive Object where
  | null
  | type (t : DartType)

/-- Modelled from the spec: the instructions the assembler can emit, which are
declared outside the source file: the indirect `jmp` of the source, and the
primitives the emitter contract names (comparison, conditional branch, load
of a class identifier or an argument slot, return).  Branch targets inside
the stub are labels bound further on in the same buffer; a label is kept as
the number of instructions to skip. -/
inductive Instr where
  /-- Indirect jump: `jmp [base + disp]`. -/
  | jmp (dst : Address)
  /-- Indirect call: `call [base + disp]`. -/
  | call (dst : Address)
  /-- Return to the address on top of the stack. -/
  | ret
  /-- Conditional branch to a label `skip` instructions further on. -/
  | j (condition : Condition) (skip : Nat)
  /-- Unconditional branch to a label `skip` instructions further on. -/
  | jmp_label (skip : Nat)
  /-- Compare a register with an immediate. -/
  | cmpq (reg : Register) (imm : Nat)
  /-- Compare the reference in a register with a constant object. -/
  | CompareObject (reg : Register) (object : Object)
  /-- Load the class identifier of the object a register refers to. -/
  | LoadClassId (result : Register) (object : Register)
  /-- Load the reference held in a type-argument slot of an object. -/
  | LoadTypeArgument (result : Register) (object : Register) (index : Nat)
  /-- Load an immediate into a register. -/
  | LoadImmediate (reg : Register) (imm : Nat)

/-- Modelled from the spec: the `compiler::Assembler` of the source, whose
declaration is not in the source file: the code buffer written so far. -/
structure Assembler where
  buffer : List Instr

/-- Modelled from the spec: the `Code` of the source, whose declaration is not
in the source file: the finished machine code of one stub. -/
structure Code where
  instructions : List Instr

/-- Modelled from the spec: the symbolic target of an unresolved call site,
the stub of another type or the slow-path entry (not in the source file). -/
inductive CallTarget where
  | stub_of (type : DartType)
  | slow_path

/-- Modelled from the spec: an unresolved call site, which the source file
does not declare: a location in the code buffer and its symbolic target. -/
structure UnresolvedPcRelativeCall where
  location : Nat
  target : CallTarget

/-- Modelled from the spec: the `compiler::UnresolvedPcRelativeCalls` of the
source, declared outside the source file: the call sites recorded so far. -/
abbrev UnresolvedPcRelativeCalls := List UnresolvedPcRelativeCall

/-- Modelled from the spec: primitive instruction emission, which is not in
the source file: the instruction is written at the end of the code buffer. -/
def Assembler.emit (assembler : Assembler) (i : Instr) : Assembler :=
  { buffer := assembler.buffer ++ [i] }

/-- Modelled from the spec: the `Assembler::jmp(const Address&)` the source
calls, defined outside the source file: it emits one indirect jump. -/
def Assembler.jmp (assembler : Assembler) (dst : Address) : Assembler :=
  assembler.emit (Instr.jmp dst)

/-! ## The function of the source -/

/-- The objects `BuildOptimizedTypeTestStub` is called on.  Three are reached
through pointers the callee could write through (`assembler`,
`unresolved_calls`, `hi`), three through `const` references
(`slow_type_test_stub`, `type`, `type_class`); the function is a map from
their state before the call to their state after it. -/
structure StubBuild where
  assembler : Assembler
  unresolved_calls : UnresolvedPcRelativeCalls
  slow_type_test_stub : Code
  hi : HierarchyInfo
  type : DartType
  type_class : Class

/-- The shape of `BuildOptimizedTypeTestStubFastCases(assembler, hi, type,
type_class)`: it receives the assembler and the hierarchy information through
pointers, the type and its class through `const` references, and returns
nothing, so its effect is the new state of the first two. -/
abbrev FastCasesEmitter :=
  Assembler → HierarchyInfo → DartType → Class → Assembler × HierarchyInfo

/-- `TypeTestingStubGenerator::BuildOptimizedTypeTestStub`.  The body is two
statements: the call `BuildOptimizedTypeTestStubFastCases(assembler, hi, type,
type_class)`, here `fastCases`, and `__ jmp(Address(THR,
Thread::slow_type_test_entry_point_offset()))` on the assembler the call
leaves.  `unresolved_calls` and `slow_type_test_stub` are named by no
statement of the body. -/
def TypeTestingStubGenerator.BuildOptimizedTypeTestStub (fastCases : FastCasesEmitter)
    (slow_type_test_entry_point_offset : Nat) (s : StubBuild) : StubBuild :=
  { s with
    assembler :=
      (fastCases s.assembler s.hi s.type s.type_class).1.jmp
        (Address.mk Register.THR slow_type_test_entry_point_offset)
    hi := (fastCases s.assembler s.hi s.type s.type_class).2 }

open TypeTestingStubGenerator

/-! ## An x64 machine for the emitted instructions -/

/-- Modelled from the spec: the width of a machine word of the x64 target in
bits (a constant declared outside the source file). -/
def kBitsPerWord : Nat := 64

/-- Modelled from the spec: the size of a machine word of the x64 target in
bytes (a constant declared outside the source file). -/
def kWordSize : Nat := 8

/-- Modelled from the spec: the state of the x64 processor while a stub runs
(the processor is no code of the repository).  Registers and memory hold
64-bit words; the thread-local slots and the stack are in memory.  The heap
is seen through two reads: the class identifier of the object a reference
points to, and the reference held in one of its type-argument slots.
`object_address` gives the reference under which a constant object named by
the code is found, `instruction_address` the address at which the instruction
with a given index in the stub is placed. -/
structure Machine where
  regs : Register → Nat
  mem : Nat → Nat
  class_id : Nat → Nat
  type_argument : Nat → Nat → Nat
  object_address : Object → Nat
  instruction_address : Nat → Nat
  zf : Bool
  cf : Bool

/-- Modelled from the spec: where control goes after one instruction. -/
inductive Transfer where
  /-- To the instruction that follows. -/
  | next
  /-- To the instruction `skip` places after the one that follows. -/
  | branch (skip : Nat)
  /-- Out of the stub by a return to `target`. -/
  | ret (target : Nat)
  /-- Out of the stub by an indirect jump to `target`. -/
  | jump (target : Nat)
  /-- Out of the stub by an indirect call of `target`. -/
  | call (target : Nat)
deriving DecidableEq, Repr

/-- Modelled from the spec: the address a memory operand denotes, base plus
displacement in 64-bit arithmetic. -/
def Machine.effective (m : Machine) (a : Address) : Nat :=
  (m.regs a.base + a.disp) % 2 ^ kBitsPerWord

/-- Modelled from the spec: the machine with one register written. -/
def Machine.setReg (m : Machine) (r : Register) (v : Nat) : Machine :=
  { m with regs := fun r' => if r' = r then v else m.regs r' }

/-- Modelled from the spec: the machine with one memory word written. -/
def Machine.store (m : Machine) (a : Nat) (v : Nat) : Machine :=
  { m with mem := fun a' => if a' = a then v else m.mem a' }

/-- Modelled from the spec: whether a branch condition holds for the flags. -/
def Machine.holds (m : Machine) : Condition → Bool
  | .EQUAL => m.zf
  | .NOT_EQUAL => !m.zf
  | .BELOW => m.cf
  | .BELOW_EQUAL => m.cf || m.zf

/-- Modelled from the spec: the execution of one emitted instruction by the
x64 processor (no code of the repository), at instruction index `pc`.  `jmp`
through memory reads its target from the operand and writes nothing; `call`
reads its target the same way and pushes the address of the following
instruction; `ret` pops its target; a comparison sets the zero and carry
flags; a load writes its result register. -/
def exec (pc : Nat) : Instr → Machine → Machine × Transfer
  | .jmp dst, m => (m, .jump (m.mem (m.effective dst)))
  | .call dst, m =>
    let sp := (m.regs .RSP + 2 ^ kBitsPerWord - kWordSize) % 2 ^ kBitsPerWord
    ((m.setReg .RSP sp).store sp (m.instruction_address (pc + 1)),
      .call (m.mem (m.effective dst)))
  | .ret, m =>
    (m.setReg .RSP ((m.regs .RSP + kWordSize) % 2 ^ kBitsPerWord),
      .ret (m.mem (m.regs .RSP)))
  | .j condition skip, m => (m, if m.holds condition then .branch skip else .next)
  | .jmp_label skip, m => (m, .branch skip)
  | .cmpq reg imm, m =>
    ({ m with zf := decide (m.regs reg = imm), cf := decide (m.regs reg < imm) }, .next)
  | .CompareObject reg object, m =>
    ({ m with zf := decide (m.regs reg = m.object_address object),
              cf := decide (m.regs reg < m.object_address object) }, .next)
  | .LoadClassId result object, m => (m.setReg result (m.class_id (m.regs object)), .next)
  | .LoadTypeArgument result object index, m =>
    (m.setReg result (m.type_argument (m.regs object) index), .next)
  | .LoadImmediate reg imm, m => (m.setReg reg (imm % 2 ^ kBitsPerWord), .next)

/-- Modelled from the spec: how a run of the stub ends. -/
inductive StubExit where
  /-- The `ret` at `index` left the stub for `target`. -/
  | returned (index : Nat) (target : Nat) (m : Machine)
  /-- The indirect `jmp` at `index` left the stub for `target`. -/
  | jumped (index : Nat) (target : Nat) (m : Machine)
  /-- The `call` at `index` left the stub for `target`. -/
  | called (index : Nat) (target : Nat) (m : Machine)
  /-- Control went past the last instruction of the stub. -/
  | fell_off (index : Nat) (m : Machine)
  /-- The step budget ran out. -/
  | out_of_fuel (index : Nat) (m : Machine)

/-- Modelled from the spec: the run of a stub on the processor, from
instruction index `pc`, for at most `fuel` instructions. -/
def run (code : List Instr) : Nat → Nat → Machine → StubExit
  | 0, pc, m => .out_of_fuel pc m
  | fuel + 1, pc, m =>
    match code.get? pc with
    | none => .fell_off pc m
    | some i =>
      match exec pc i m with
      | (m', .next) => run code fuel (pc + 1) m'
      | (m', .branch skip) => run code fuel (pc + 1 + skip) m'
      | (m', .ret target) => .returned pc target m'
      | (m', .jump target) => .jumped pc target m'
      | (m', .call target) => .called pc target m'

/-- Modelled from the spec: the run of a stub from its entry.  Every branch
goes forward, so no run executes more instructions than the stub holds. -/
def runStub (code : List Instr) (m : Machine) : StubExit :=
  run code (code.length + 1) 0 m

/-! ## The fast cases, as the specification describes them

The source calls `BuildOptimizedTypeTestStubFastCases` and does not contain
it.  What follows is the fast-path planner and the lowering of a plan to
instructions as the specification words them (data model, planner policy and
emitter contract). -/

/-- Modelled from the spec: the terminal outcomes of a plan, `Accept`,
`Reject` or `FallThroughToSlowPath` (the plan type is not in the source). -/
inductive Outcome where
  | Accept | Reject | FallThroughToSlowPath
deriving DecidableEq, Repr

mutual
/-- Modelled from the spec: a check node of a plan, which the source does not
contain.  `IsNull o`: a null subject ends with `o`.  `IdentityEquals t`: a
subject identical to the canonical type `t` ends with `Accept`.
`ClassIdEquals id o` and `ClassIdInRange lo hi o`: a subject whose class
identifier matches continues, any other ends with `o`.
`RecurseTypeArgument index subPlan`: `subPlan` is applied to the type argument
in slot `index`. -/
inductive Check where
  | IsNull (outcome : Outcome)
  | IdentityEquals (canonical : DartType)
  | ClassIdEquals (id : Nat) (outcome : Outcome)
  | ClassIdInRange (lo hi : Nat) (outcome : Outcome)
  | RecurseTypeArgument (index : Nat) (subPlan : Plan)
/-- Modelled from the spec: a plan, an ordered sequence of check nodes plus a
terminal outcome (the plan type is not in the source). -/
inductive Plan where
  | mk (checks : List Check) (terminal : Outcome)
end

/-- Modelled from the spec: the per-class metadata the planner reads, which
the source does not contain: the class identifier, whether the class is
sealed, and the identifier ranges of its subclasses and implementers. -/
structure ClassInfo where
  id : Nat
  is_sealed : Bool
  ranges : List (Nat × Nat)

/-- Modelled from the spec: the hierarchy facts of a class, read from the
hierarchy oracle. -/
def HierarchyInfo.classInfo (hi : HierarchyInfo) (c : Class) : ClassInfo :=
  { id := c.id, is_sealed := hi.isSealed c, ranges := hi.classIdRanges c }

/-- Modelled from the spec: the class-identifier check of the planner policy,
rule 2 (the planner is not in the source).  A sealed class with no subclass
range is tested by `ClassIdEquals` on its own identifier, a sealed class with
a single contiguous range by `ClassIdInRange`; a mismatch is a `Reject`.  A
class that is not sealed, or has no single range, has no such check
(rule 4). -/
def classCheck (info : ClassInfo) : Option Check :=
  if info.is_sealed then
    match info.ranges with
    | [] => some (Check.ClassIdEquals info.id Outcome.Reject)
    | [(lo, hi)] => some (Check.ClassIdInRange lo hi Outcome.Reject)
    | _ => none
  else none

/-- Modelled from the spec: rule 1 of the planner policy (the planner is not
in the source): a type that permits `null` has the subject checked for null
first, with `Accept`. -/
def nullCheck (nullable : Bool) : List Check :=
  if nullable then [Check.IsNull Outcome.Accept] else []

/-- Modelled from the spec: whether a plan ends inconclusive. -/
def Plan.inconclusive : Plan → Bool
  | .mk _ .FallThroughToSlowPath => true
  | .mk _ _ => false

/-- Modelled from the spec: the plan with the identical-type fast exit put
before its checks (planner policy, edge cases). -/
def Plan.withIdentity (t : DartType) : Plan → Plan
  | .mk cs o => .mk (Check.IdentityEquals t :: cs) o

mutual
/-- Modelled from the spec: the fast-path planner `plan(type, classInfo)`,
which the source does not contain, following its policy in priority order.
The null check of a type that permits `null` always comes first (rule 1).
Then a class with a class-identifier check gets that check (rule 2) and, for
a generic type, one recursive check per type argument (rule 3); when all pass
the plan accepts.  A class without a class-identifier check, or a type
argument whose plan is inconclusive, ends the plan with
`FallThroughToSlowPath` right after the null check (rules 3 and 4). -/
def plan (hi : HierarchyInfo) : DartType → ClassInfo → Plan
  | .mk _ nullable arguments, info =>
    match classCheck info with
    | none => Plan.mk (nullCheck nullable) Outcome.FallThroughToSlowPath
    | some check =>
      match planArguments hi arguments 0 with
      | none => Plan.mk (nullCheck nullable) Outcome.FallThroughToSlowPath
      | some recursive => Plan.mk (nullCheck nullable ++ [check] ++ recursive) Outcome.Accept
/-- Modelled from the spec: rule 3 of the planner policy (the planner is not
in the source).  The policy is applied to each type argument in turn, the
identical-type exit being tried before the structural checks of the argument;
an argument whose plan is inconclusive makes the whole plan inconclusive
(`none`). -/
def planArguments (hi : HierarchyInfo) : List DartType → Nat → Option (List Check)
  | [], _ => some []
  | a :: rest, index =>
    if (plan hi a (hi.classInfo a.type_class)).inconclusive then none
    else
      match planArguments hi rest (index + 1) with
      | none => none
      | some checks =>
        some (Check.RecurseTypeArgument index
          ((plan hi a (hi.classInfo a.type_class)).withIdentity a) :: checks)
end

/-- Modelled from the spec: the register holding the reference to the object
under test (the register convention is not in the source file). -/
def kInstanceReg : Register := Register.RDX

/-- Modelled from the spec: the register holding the class identifier being
compared (the register convention is not in the source file). -/
def kScratchReg : Register := Register.RCX

/-- Modelled from the spec: the register holding the type argument a nested
check looks at (the register convention is not in the source file). -/
def kArgumentReg : Register := Register.RBX

/-- Modelled from the spec: the register holding the outcome on return, 1 for
`Accept` and 0 for `Reject` (the convention is not in the source file). -/
def kResultReg : Register := Register.RAX

/-- Modelled from the spec: the loads that bring the type argument at a path
of slot indices, counted from the object under test, into `kArgumentReg`
(the emitter is not in the source file). -/
def loadPath : List Nat → List Instr
  | [] => []
  | i :: rest =>
    Instr.LoadTypeArgument kArgumentReg kInstanceReg i ::
      rest.map (fun j => Instr.LoadTypeArgument kArgumentReg kArgumentReg j)

/-- Modelled from the spec: the register in which the checks at a path find
their subject (the emitter is not in the source file). -/
def subjectReg : List Nat → Register
  | [] => kInstanceReg
  | _ :: _ => kArgumentReg

/-- Modelled from the spec: a forward branch over `distance` instructions;
none is needed for 0 (the emitter is not in the source file). -/
def branchTo (distance : Nat) : List Instr :=
  if distance = 0 then [] else [Instr.jmp_label distance]

/-- Modelled from the spec: the lowering of an outcome by the stub emitter,
which the source does not contain.  At the top level `Accept` is an
affirmative return and inside a nested plan it joins the enclosing sequence
`to_join` instructions further on; `Reject` is a negative return;
`FallThroughToSlowPath` branches to the end of the fast cases, `to_end`
instructions further on, where the transfer to the slow path stands. -/
def lowerOutcome (path : List Nat) (to_join to_end : Nat) : Outcome → List Instr
  | .Accept =>
    if path.isEmpty then [Instr.LoadImmediate kResultReg 1, Instr.ret]
    else branchTo to_join
  | .Reject => [Instr.LoadImmediate kResultReg 0, Instr.ret]
  | .FallThroughToSlowPath => branchTo to_end

mutual
/-- Modelled from the spec: the lowering of a plan by the stub emitter, which
the source does not contain.  `to_end` is the number of fast-case
instructions that follow the plan. -/
def lowerPlan (path : List Nat) (to_end : Nat) : Plan → List Instr
  | .mk checks terminal => lowerChecks path (lowerOutcome path 0 to_end terminal) to_end checks
/-- Modelled from the spec: the lowering of a sequence of checks, followed by
the code `terminal` of the terminal outcome (the emitter is not in the
source). -/
def lowerChecks (path : List Nat) (terminal : List Instr) (to_end : Nat) :
    List Check → List Instr
  | [] => terminal
  | c :: cs =>
    lowerCheck path (lowerChecks path terminal to_end cs).length to_end c ++
      lowerChecks path terminal to_end cs
/-- Modelled from the spec: the lowering of one check (the emitter is not in
the source).  An identifier equality is one comparison and a branch, a range
check a pair of comparisons with their branches, a recursive check loads the
argument slot, lowers the nested plan and joins afterwards.  `to_join` is the
number of instructions of the same plan that follow the check. -/
def lowerCheck (path : List Nat) (to_join to_end : Nat) : Check → List Instr
  | .IsNull outcome =>
    [Instr.CompareObject (subjectReg path) Object.null,
     Instr.j Condition.NOT_EQUAL (lowerOutcome path to_join (to_join + to_end) outcome).length] ++
      lowerOutcome path to_join (to_join + to_end) outcome
  | .IdentityEquals canonical =>
    [Instr.CompareObject (subjectReg path) (Object.type canonical),
     Instr.j Condition.NOT_EQUAL
       (lowerOutcome path to_join (to_join + to_end) Outcome.Accept).length] ++
      lowerOutcome path to_join (to_join + to_end) Outcome.Accept
  | .ClassIdEquals id outcome =>
    [Instr.LoadClassId kScratchReg (subjectReg path),
     Instr.cmpq kScratchReg id,
     Instr.j Condition.EQUAL (lowerOutcome path to_join (to_join + to_end) outcome).length] ++
      lowerOutcome path to_join (to_join + to_end) outcome
  | .ClassIdInRange lo hi outcome =>
    [Instr.LoadClassId kScratchReg (subjectReg path),
     Instr.cmpq kScratchReg lo,
     Instr.j Condition.BELOW 2,
     Instr.cmpq kScratchReg hi,
     Instr.j Condition.BELOW_EQUAL
       (lowerOutcome path to_join (to_join + to_end) outcome).length] ++
      lowerOutcome path to_join (to_join + to_end) outcome
  | .RecurseTypeArgument index subPlan =>
    loadPath (path ++ [index]) ++
      lowerPlan (path ++ [index]) ((loadPath path).length + to_join + to_end) subPlan ++
      loadPath path
end

/-- Modelled from the spec: the stub emitter applied to a whole plan, up to
the transfer to the slow path that the source emits itself. -/
def lower (p : Plan) : List Instr :=
  lowerPlan [] 0 p

/-- Modelled from the spec: `BuildOptimizedTypeTestStubFastCases`, which the
source calls and does not contain.  It plans the fast path for the type from
the hierarchy facts of its class and emits the lowered plan; the hierarchy
information is only read. -/
def TypeTestingStubGenerator.BuildOptimizedTypeTestStubFastCases : FastCasesEmitter :=
  fun assembler hi type type_class =>
    ((lower (plan hi type (hi.classInfo type_class))).foldl Assembler.emit assembler, hi)

/-! ## Well-formed fast cases -/

/-- Whether an instruction of the fast cases keeps control inside the stub
and leaves the thread register alone, `following` being the number of
fast-case instructions after it.  A branch may reach at most the end of the
fast cases; the only way out is `ret`. -/
def Instr.confined (following : Nat) : Instr → Bool
  | .jmp _ => false
  | .call _ => false
  | .ret => true
  | .j _ skip => decide (skip ≤ following)
  | .jmp_label skip => decide (skip ≤ following)
  | .cmpq _ _ => true
  | .CompareObject _ _ => true
  | .LoadClassId result _ => decide (result ≠ Register.THR)
  | .LoadTypeArgument result _ _ => decide (result ≠ Register.THR)
  | .LoadImmediate reg _ => decide (reg ≠ Register.THR)

/-- Whether a fast-case sequence is well formed: every label it branches to
is bound inside the sequence or at its end, it holds no indirect jump or
call, and it does not write the thread register. -/
def confined : List Instr → Bool
  | [] => true
  | i :: rest => i.confined rest.length && confined rest

/-- Whether a piece of a fast-case sequence is well formed when `following`
more fast-case instructions come after it. -/
def confinedIn (following : Nat) : List Instr → Bool
  | [] => true
  | i :: rest => i.confined (rest.length + following) && confinedIn following rest

/-- The instructions of the stub of a sealed class with no subclasses and
class identifier `id`, for a type that does not admit `null`. -/
def sealedClassStub (id off : Nat) : List Instr :=
  [Instr.LoadClassId kScratchReg kInstanceReg, Instr.cmpq kScratchReg id,
   Instr.j Condition.EQUAL 2, Instr.LoadImmediate kResultReg 0, Instr.ret,
   Instr.LoadImmediate kResultReg 1, Instr.ret, Instr.jmp ⟨Register.THR, off⟩]

/-- The instructions of the stub of the same class for a type that admits
`null`: the null check comes first. -/
def nullableSealedClassStub (id off : Nat) : List Instr :=
  [Instr.CompareObject kInstanceReg Object.null, Instr.j Condition.NOT_EQUAL 2,
   Instr.LoadImmediate kResultReg 1, Instr.ret] ++ sealedClassStub id off

/-- The outcome a caller reads off a finished run: a `ret` with the result
register at 1 is `Accept`, a `ret` with any other result is `Reject`, and a
run that left for the slow path has no outcome of its own yet. -/
def StubExit.outcome : StubExit → Outcome
  | .returned _ _ m => if m.regs kResultReg = 1 then Outcome.Accept else Outcome.Reject
  | _ => Outcome.FallThroughToSlowPath

/-- The instructions a call of the stub builder wrote: the code buffer after
the call without what it held before the call. -/
def StubBuild.emitted (before after : StubBuild) : List Instr :=
  after.assembler.buffer.drop before.assembler.buffer.length

/-- The instructions of the stub of a nullable type of an open class: the null
check, then the transfer to the slow path. -/
def nullableOpenClassStub (off : Nat) : List Instr :=
  [Instr.CompareObject kInstanceReg Object.null, Instr.j Condition.NOT_EQUAL 2,
   Instr.LoadImmediate kResultReg 1, Instr.ret, Instr.jmp ⟨Register.THR, off⟩]

/-! ## Example inputs -/

/-- A hierarchy in which class 5 is sealed with the one subclass range
[10, 14], class 99 is open, and every other class is sealed with no subclass. -/
def exampleHierarchy : HierarchyInfo :=
  { classIdRanges := fun c => if c.id = 5 then [(10, 14)] else []
    isSealed := fun c => c.id != 99 }

/-- The type of a sealed class with no subclasses and class identifier 42. -/
def exampleSealedType : DartType := DartType.mk ⟨42⟩ false []

/-- The type of the open class 99. -/
def exampleOpenType : DartType := DartType.mk ⟨99⟩ false []

/-- A nullable generic type of the sealed class 60 whose one type argument is
the type of class 5. -/
def exampleGenericType : DartType := DartType.mk ⟨60⟩ true [DartType.mk ⟨5⟩ false []]

/-- The nullable type of the open class 99. -/
def exampleNullableOpenType : DartType := DartType.mk ⟨99⟩ true []

/-- A call of the stub builder for a type, into an empty code buffer. -/
def exampleBuild (t : DartType) : StubBuild :=
  { assembler := ⟨[]⟩, unresolved_calls := [], slow_type_test_stub := ⟨[]⟩,
    hi := exampleHierarchy, type := t, type_class := t.type_class }

/-- A machine about to run a stub on the object referred to by `object`,
whose class identifier is `cid`.  The thread is at address 500, the stack
pointer at 900 with the return address 4242 on top, `null` at reference 0. -/
def exampleMachine (object cid : Nat) : Machine :=
  { regs := fun r =>
      match r with
      | .RDX => object
      | .THR => 500
      | .RSP => 900
      | _ => 0
    mem := fun a => if a = 516 then 7777 else if a = 900 then 4242 else 0
    class_id := fun r => if r = object then cid else 0
    type_argument := fun _ _ => 0
    object_address := fun o =>
      match o with
      | .null => 0
      | .type _ => 8
    instruction_address := fun i => 100000 + i
    zf := false
    cf := false }

/-- The type of the sealed class 5, whose subclasses have the identifiers
10 to 14. -/
def exampleRangeType : DartType := DartType.mk ⟨5⟩ false []

/-- A machine about to run a stub on a generic object at reference 2000, of
class 60, whose type argument in slot 0 is the type at reference 3000, of
class `argument_cid`. -/
def exampleGenericMachine (argument_cid : Nat) : Machine :=
  { regs := fun r =>
      match r with
      | .RDX => 2000
      | .THR => 500
      | .RSP => 900
      | _ => 0
    mem := fun a => if a = 516 then 7777 else if a = 900 then 4242 else 0
    class_id := fun r => if r = 2000 then 60 else if r = 3000 then argument_cid else 0
    type_argument := fun r i => if r = 2000 ∧ i = 0 then 3000 else 0
    object_address := fun o =>
      match o with
      | .null => 0
      | .type _ => 8
    instruction_address := fun i => 100000 + i
    zf := false
    cf := false }

/-- The code of the stub the specification's fast cases give for a type in the
example hierarchy, built into an empty buffer. -/
def exampleStub (t : DartType) : List Instr :=
  (BuildOptimizedTypeTestStub BuildOptimizedTypeTestStubFastCases 16
    (exampleBuild t)).assembler.buffer

/-! ## Lemmas -/

theorem emit_buffer (a : Assembler) (i : Instr) : (a.emit i).buffer = a.buffer ++ [i] := rfl

theorem foldl_emit_buffer (is : List Instr) (a : Assembler) :
    (is.foldl Assembler.emit a).buffer = a.buffer ++ is := by
  induction is generalizing a with
  | nil => simp
  | cons i is ih => simp [ih, emit_buffer]

theorem fastCases_buffer (a : Assembler) (hi : HierarchyInfo) (t : DartType) (c : Class) :
    (BuildOptimizedTypeTestStubFastCases a hi t c).1.buffer =
      a.buffer ++ lower (plan hi t (hi.classInfo c)) := by
  simp [BuildOptimizedTypeTestStubFastCases, foldl_emit_buffer]

theorem build_buffer (fastCases : FastCasesEmitter) (off : Nat) (s : StubBuild) :
    (BuildOptimizedTypeTestStub fastCases off s).assembler.buffer =
      (fastCases s.assembler s.hi s.type s.type_class).1.buffer ++
        [Instr.jmp ⟨Register.THR, off⟩] := rfl

theorem confined_get (fast : List Instr) (h : confined fast = true) :
    ∀ (pc : Nat) (i : Instr), fast.get? pc = some i →
      i.confined (fast.length - pc - 1) = true := by
  induction fast with
  | nil => intro pc i hget; simp at hget
  | cons a rest ih =>
    simp only [confined, Bool.and_eq_true] at h
    intro pc i hget
    cases pc with
    | zero =>
      simp at hget
      subst hget
      simpa using h.1
    | succ pc =>
      simp at hget
      have := ih h.2 pc i (by simpa using hget)
      simpa using this

theorem exec_confined (pc following : Nat) (i : Instr) (m : Machine)
    (h : i.confined following = true) :
    (exec pc i m).1.regs Register.THR = m.regs Register.THR ∧
    (exec pc i m).1.mem = m.mem ∧
    ((exec pc i m).2 = Transfer.next ∨
      (∃ skip, skip ≤ following ∧ (exec pc i m).2 = Transfer.branch skip) ∨
      (∃ target, (exec pc i m).2 = Transfer.ret target)) := by
  cases i with
  | jmp dst => simp [Instr.confined] at h
  | call dst => simp [Instr.confined] at h
  | ret => simp [exec, Machine.setReg]
  | j c skip =>
    simp only [Instr.confined, decide_eq_true_eq] at h
    by_cases hc : m.holds c = true
    · simp [exec, hc, h]
    · simp [exec, hc]
  | jmp_label skip =>
    simp only [Instr.confined, decide_eq_true_eq] at h
    simp [exec, h]
  | cmpq r imm => simp [exec]
  | CompareObject r o => simp [exec]
  | LoadClassId r o =>
    simp only [Instr.confined, decide_eq_true_eq] at h
    simp [exec, Machine.setReg, Ne.symm h]
  | LoadTypeArgument r o k =>
    simp only [Instr.confined, decide_eq_true_eq] at h
    simp [exec, Machine.setReg, Ne.symm h]
  | LoadImmediate r imm =>
    simp only [Instr.confined, decide_eq_true_eq] at h
    simp [exec, Machine.setReg, Ne.symm h]

theorem run_succ (code : List Instr) (fuel pc : Nat) (m : Machine) (i : Instr)
    (hi : code.get? pc = some i) :
    run code (fuel + 1) pc m =
      match (exec pc i m).2 with
      | .next => run code fuel (pc + 1) (exec pc i m).1
      | .branch skip => run code fuel (pc + 1 + skip) (exec pc i m).1
      | .ret target => StubExit.returned pc target (exec pc i m).1
      | .jump target => StubExit.jumped pc target (exec pc i m).1
      | .call target => StubExit.called pc target (exec pc i m).1 := by
  rw [run, hi]
  dsimp only
  rcases exec pc i m with ⟨m', t⟩
  cases t <;> rfl

theorem run_confined (fast : List Instr) (a : Address) (hbase : a.base = Register.THR)
    (h : confined fast = true) :
    ∀ (fuel pc : Nat) (m : Machine), pc ≤ fast.length → fast.length - pc + 1 ≤ fuel →
      (∃ i t m', i < fast.length ∧
          run (fast ++ [Instr.jmp a]) fuel pc m = StubExit.returned i t m') ∨
      (∃ m', run (fast ++ [Instr.jmp a]) fuel pc m =
          StubExit.jumped fast.length (m.mem (m.effective a)) m') := by
  intro fuel
  induction fuel with
  | zero => intro pc m _ hf; omega
  | succ fuel ih =>
    intro pc m hpc hf
    by_cases hlt : pc < fast.length
    · obtain ⟨i, hi⟩ : ∃ i, fast.get? pc = some i := by
        simp [List.getElem?_eq_getElem hlt]
      have hget : (fast ++ [Instr.jmp a]).get? pc = some i := by
        rw [← hi]
        simp [List.getElem?_append_left hlt]
      have hc := confined_get fast h pc i hi
      obtain ⟨hthr, hmem, htr⟩ := exec_confined pc _ i m hc
      have heff : (exec pc i m).1.mem ((exec pc i m).1.effective a) = m.mem (m.effective a) := by
        simp [Machine.effective, hbase, hthr, hmem]
      rw [run_succ _ _ _ _ _ hget]
      rcases htr with hn | ⟨skip, hskip, hb⟩ | ⟨target, hr⟩
      · rw [hn, ← heff]
        exact ih (pc + 1) _ (by omega) (by omega)
      · rw [hb, ← heff]
        exact ih (pc + 1 + skip) _ (by omega) (by omega)
      · rw [hr]
        exact Or.inl ⟨pc, target, _, hlt, rfl⟩
    · have hpc' : pc = fast.length := by omega
      subst hpc'
      have hget : (fast ++ [Instr.jmp a]).get? fast.length = some (Instr.jmp a) := by
        simp
      rw [run_succ _ _ _ _ _ hget]
      exact Or.inr ⟨m, rfl⟩

theorem run_j (code : List Instr) (fuel pc : Nat) (m : Machine) (c : Condition) (skip : Nat)
    (hi : code.get? pc = some (Instr.j c skip)) :
    run code (fuel + 1) pc m =
      if m.holds c = true then run code fuel (pc + 1 + skip) m else run code fuel (pc + 1) m := by
  rw [run_succ _ _ _ _ _ hi]
  by_cases h : m.holds c = true <;> simp [exec, h]

theorem plan_sealed_single (hi : HierarchyInfo) (c c' : Class) (n : Bool)
    (hsealed : hi.isSealed c = true) (hno : hi.classIdRanges c = []) :
    plan hi (DartType.mk c' n []) (hi.classInfo c) =
      Plan.mk (nullCheck n ++ [Check.ClassIdEquals c.id Outcome.Reject]) Outcome.Accept := by
  simp [plan, planArguments, classCheck, HierarchyInfo.classInfo, hsealed, hno]

theorem plan_open (hi : HierarchyInfo) (c : Class) (t : DartType)
    (hopen : hi.isSealed c = false) :
    plan hi t (hi.classInfo c) =
      Plan.mk (nullCheck t.nullable) Outcome.FallThroughToSlowPath := by
  obtain ⟨c', n, args⟩ := t
  simp [plan, classCheck, HierarchyInfo.classInfo, hopen, DartType.nullable]

theorem emitted_fastCases (off : Nat) (s : StubBuild) :
    s.emitted (BuildOptimizedTypeTestStub BuildOptimizedTypeTestStubFastCases off s) =
      lower (plan s.hi s.type (s.hi.classInfo s.type_class)) ++
        [Instr.jmp ⟨Register.THR, off⟩] := by
  simp [StubBuild.emitted, build_buffer, fastCases_buffer]

theorem stub_sealed_single (off : Nat) (s : StubBuild)
    (hbuf : s.assembler.buffer = [])
    (hsealed : s.hi.isSealed s.type_class = true)
    (hno : s.hi.classIdRanges s.type_class = [])
    (hargs : s.type.arguments = []) :
    (BuildOptimizedTypeTestStub BuildOptimizedTypeTestStubFastCases off s).assembler.buffer =
      if s.type.nullable = true then nullableSealedClassStub s.type_class.id off
      else sealedClassStub s.type_class.id off := by
  obtain ⟨asm, calls, slow, hi, t, c⟩ := s
  obtain ⟨c', n, args⟩ := t
  simp only [DartType.arguments] at hargs
  simp only at hbuf hsealed hno
  subst hargs
  rw [build_buffer, fastCases_buffer]
  simp only [hbuf, plan_sealed_single hi c c' n hsealed hno, DartType.nullable]
  cases n <;> rfl

theorem run_sealed_accept (off : Nat) (m : Machine)
    (h : m.class_id (m.regs kInstanceReg) = 42) :
    ∃ i m', runStub (sealedClassStub 42 off) m =
        StubExit.returned i (m.mem (m.regs Register.RSP)) m' ∧ m'.regs kResultReg = 1 := by
  have e0 : runStub (sealedClassStub 42 off) m = run (sealedClassStub 42 off) 7 2
      { m.setReg kScratchReg (m.class_id (m.regs kInstanceReg)) with
        zf := decide (m.class_id (m.regs kInstanceReg) = 42)
        cf := decide (m.class_id (m.regs kInstanceReg) < 42) } := rfl
  rw [e0, run_j (sealedClassStub 42 off) 6 2 _ Condition.EQUAL 2 rfl]
  simp only [Machine.holds, h, decide_True, if_true]
  exact ⟨6, _, rfl, rfl⟩

theorem run_sealed_reject (off : Nat) (m : Machine)
    (h : m.class_id (m.regs kInstanceReg) = 7) :
    ∃ i m', runStub (sealedClassStub 42 off) m =
        StubExit.returned i (m.mem (m.regs Register.RSP)) m' ∧ m'.regs kResultReg = 0 := by
  have e0 : runStub (sealedClassStub 42 off) m = run (sealedClassStub 42 off) 7 2
      { m.setReg kScratchReg (m.class_id (m.regs kInstanceReg)) with
        zf := decide (m.class_id (m.regs kInstanceReg) = 42)
        cf := decide (m.class_id (m.regs kInstanceReg) < 42) } := rfl
  rw [e0, run_j (sealedClassStub 42 off) 6 2 _ Condition.EQUAL 2 rfl]
  simp only [Machine.holds, h]
  exact ⟨4, _, rfl, rfl⟩

theorem run_nullable_sealed_null (off : Nat) (m : Machine)
    (h : m.regs kInstanceReg = m.object_address Object.null) :
    ∃ i m', runStub (nullableSealedClassStub 42 off) m =
        StubExit.returned i (m.mem (m.regs Register.RSP)) m' ∧ m'.regs kResultReg = 1 := by
  have e0 : runStub (nullableSealedClassStub 42 off) m =
      run (nullableSealedClassStub 42 off) 12 1
        { m with
          zf := decide (m.regs kInstanceReg = m.object_address Object.null)
          cf := decide (m.regs kInstanceReg < m.object_address Object.null) } := rfl
  rw [e0, run_j (nullableSealedClassStub 42 off) 11 1 _ Condition.NOT_EQUAL 2 rfl]
  simp only [Machine.holds, h, decide_True]
  exact ⟨3, _, rfl, rfl⟩

theorem run_nullable_sealed_object (off : Nat) (m : Machine)
    (h : m.regs kInstanceReg ≠ m.object_address Object.null) :
    runStub (nullableSealedClassStub 42 off) m =
      run (nullableSealedClassStub 42 off) 9 6
        { m.setReg kScratchReg (m.class_id (m.regs kInstanceReg)) with
          zf := decide (m.class_id (m.regs kInstanceReg) = 42)
          cf := decide (m.class_id (m.regs kInstanceReg) < 42) } := by
  have e0 : runStub (nullableSealedClassStub 42 off) m =
      run (nullableSealedClassStub 42 off) 12 1
        { m with
          zf := decide (m.regs kInstanceReg = m.object_address Object.null)
          cf := decide (m.regs kInstanceReg < m.object_address Object.null) } := rfl
  rw [e0, run_j (nullableSealedClassStub 42 off) 11 1 _ Condition.NOT_EQUAL 2 rfl]
  simp only [Machine.holds, h, decide_False, Bool.not_false, if_true]
  rfl

theorem run_nullable_sealed_accept (off : Nat) (m : Machine)
    (h : m.class_id (m.regs kInstanceReg) = 42) :
    ∃ i m', runStub (nullableSealedClassStub 42 off) m =
        StubExit.returned i (m.mem (m.regs Register.RSP)) m' ∧ m'.regs kResultReg = 1 := by
  by_cases hnull : m.regs kInstanceReg = m.object_address Object.null
  · exact run_nullable_sealed_null off m hnull
  · rw [run_nullable_sealed_object off m hnull,
      run_j (nullableSealedClassStub 42 off) 8 6 _ Condition.EQUAL 2 rfl]
    simp only [Machine.holds, h, decide_True, if_true]
    exact ⟨10, _, rfl, rfl⟩

theorem run_nullable_sealed_reject (off : Nat) (m : Machine)
    (h : m.class_id (m.regs kInstanceReg) = 7)
    (hobj : m.regs kInstanceReg ≠ m.object_address Object.null) :
    ∃ i m', runStub (nullableSealedClassStub 42 off) m =
        StubExit.returned i (m.mem (m.regs Register.RSP)) m' ∧ m'.regs kResultReg = 0 := by
  rw [run_nullable_sealed_object off m hobj,
    run_j (nullableSealedClassStub 42 off) 8 6 _ Condition.EQUAL 2 rfl]
  simp only [Machine.holds, h]
  exact ⟨8, _, rfl, rfl⟩

/-! ### The fast cases of the specification are well formed -/

theorem confinedIn_zero (l : List Instr) : confinedIn 0 l = confined l := by
  induction l with
  | nil => rfl
  | cons i rest ih => simp [confinedIn, confined, ih]

theorem confinedIn_append (f : Nat) (a b : List Instr) :
    confinedIn f (a ++ b) = (confinedIn (b.length + f) a && confinedIn f b) := by
  induction a with
  | nil => simp [confinedIn]
  | cons i rest ih =>
    simp [confinedIn, ih, Nat.add_assoc, Bool.and_assoc]

theorem confinedIn_branchTo (f d : Nat) (h : d ≤ f) : confinedIn f (branchTo d) = true := by
  unfold branchTo
  split <;> simp [confinedIn, Instr.confined, h]

theorem confinedIn_lowerOutcome (path : List Nat) (f to_join to_end : Nat) (o : Outcome)
    (hj : to_join ≤ f) (he : to_end ≤ f) :
    confinedIn f (lowerOutcome path to_join to_end o) = true := by
  cases o with
  | Accept =>
    simp only [lowerOutcome]
    split
    · simp [confinedIn, Instr.confined, kResultReg]
    · exact confinedIn_branchTo f to_join hj
  | Reject => simp [lowerOutcome, confinedIn, Instr.confined, kResultReg]
  | FallThroughToSlowPath => exact confinedIn_branchTo f to_end he

theorem confinedIn_map_load (f : Nat) (l : List Nat) :
    confinedIn f (l.map (fun j => Instr.LoadTypeArgument kArgumentReg kArgumentReg j)) = true := by
  induction l with
  | nil => rfl
  | cons a l ih =>
    have hreg : kArgumentReg ≠ Register.THR := by decide
    simp [confinedIn, Instr.confined, hreg, ih]

theorem confinedIn_loadPath (f : Nat) (p : List Nat) : confinedIn f (loadPath p) = true := by
  cases p with
  | nil => rfl
  | cons i rest =>
    have hreg : kArgumentReg ≠ Register.THR := by decide
    simp [loadPath, confinedIn, Instr.confined, hreg, confinedIn_map_load]

mutual
theorem confinedIn_lowerPlan (p : Plan) (path : List Nat) (to_end : Nat) :
    confinedIn to_end (lowerPlan path to_end p) = true := by
  match p with
  | .mk checks terminal =>
    rw [lowerPlan]
    exact confinedIn_lowerChecks checks path _ to_end
      (confinedIn_lowerOutcome path to_end 0 to_end terminal (Nat.zero_le _) (Nat.le_refl _))
theorem confinedIn_lowerChecks (cs : List Check) (path : List Nat) (terminal : List Instr)
    (to_end : Nat) (ht : confinedIn to_end terminal = true) :
    confinedIn to_end (lowerChecks path terminal to_end cs) = true := by
  match cs with
  | [] => rw [lowerChecks]; exact ht
  | c :: cs =>
    rw [lowerChecks, confinedIn_append, Bool.and_eq_true]
    exact ⟨confinedIn_lowerCheck c path _ to_end,
      confinedIn_lowerChecks cs path terminal to_end ht⟩
theorem confinedIn_lowerCheck (c : Check) (path : List Nat) (to_join to_end : Nat) :
    confinedIn (to_join + to_end) (lowerCheck path to_join to_end c) = true := by
  match c with
  | .IsNull o =>
    have := confinedIn_lowerOutcome path (to_join + to_end) to_join (to_join + to_end) o
      (by omega) (by omega)
    simp [lowerCheck, confinedIn, Instr.confined, this]
  | .IdentityEquals t =>
    have := confinedIn_lowerOutcome path (to_join + to_end) to_join (to_join + to_end)
      Outcome.Accept (by omega) (by omega)
    simp [lowerCheck, confinedIn, Instr.confined, this]
  | .ClassIdEquals id o =>
    have := confinedIn_lowerOutcome path (to_join + to_end) to_join (to_join + to_end) o
      (by omega) (by omega)
    simp [lowerCheck, confinedIn, Instr.confined, this, kScratchReg]
  | .ClassIdInRange lo hi o =>
    have := confinedIn_lowerOutcome path (to_join + to_end) to_join (to_join + to_end) o
      (by omega) (by omega)
    simp [lowerCheck, confinedIn, Instr.confined, this, kScratchReg]
    omega
  | .RecurseTypeArgument index sub =>
    have h := confinedIn_lowerPlan sub (path ++ [index])
      ((loadPath path).length + to_join + to_end)
    rw [lowerCheck, confinedIn_append, confinedIn_append, Bool.and_eq_true, Bool.and_eq_true]
    refine ⟨⟨confinedIn_loadPath _ _, ?_⟩, confinedIn_loadPath _ _⟩
    rw [← h]
    congr 1
    omega
end

theorem confined_lower (p : Plan) : confined (lower p) = true := by
  rw [← confinedIn_zero]
  exact confinedIn_lowerPlan p [] 0

theorem fastCases_confined (a : Assembler) (hi : HierarchyInfo) (t : DartType) (c : Class)
    (ha : a.buffer = []) :
    confined (BuildOptimizedTypeTestStubFastCases a hi t c).1.buffer = true := by
  rw [fastCases_buffer, ha, List.nil_append]
  exact confined_lower _

/-! ### The concrete scenarios of the specification, run on the model -/

theorem scenario_sealed_range :
    (runStub (exampleStub exampleRangeType) (exampleMachine 1000 12)).outcome = Outcome.Accept ∧
      (runStub (exampleStub exampleRangeType) (exampleMachine 1000 20)).outcome =
        Outcome.Reject := by
  decide

theorem scenario_nullable_null :
    (runStub (exampleStub (DartType.mk ⟨42⟩ true [])) (exampleMachine 0 1)).outcome =
      Outcome.Accept := by
  decide

theorem scenario_generic_argument :
    (runStub (exampleStub exampleGenericType) (exampleGenericMachine 11)).outcome =
        Outcome.Accept ∧
      (runStub (exampleStub exampleGenericType) (exampleGenericMachine 20)).outcome =
        Outcome.Reject := by
  decide

theorem scenario_nullable_open_null :
    (runStub (exampleStub exampleNullableOpenType) (exampleMachine 0 1)).outcome =
      Outcome.Accept := by
  decide

theorem scenario_open_class :
    exampleStub exampleOpenType = [Instr.jmp (Address.mk Register.THR 16)] :=
  rfl

/-! ## The claims -/

/-- C2: for every assembler state, hierarchy information, type and class,
`BuildOptimizedTypeTestStub` leaves the code buffer equal to the buffer
produced by the fast cases on the same inputs followed by exactly one more
instruction, the `jmp` through `[THR + slow_type_test_entry_point_offset]`,
which is the last instruction of the buffer. -/
theorem BuildOptimizedTypeTestStub_appends_one_jmp (fastCases : FastCasesEmitter)
    (off : Nat) (s : StubBuild) :
    (BuildOptimizedTypeTestStub fastCases off s).assembler.buffer =
        (fastCases s.assembler s.hi s.type s.type_class).1.buffer ++
          [Instr.jmp (Address.mk Register.THR off)] ∧
      (BuildOptimizedTypeTestStub fastCases off s).assembler.buffer.getLast? =
        some (Instr.jmp (Address.mk Register.THR off)) ∧
      (BuildOptimizedTypeTestStub fastCases off s).assembler.buffer.length =
        (fastCases s.assembler s.hi s.type s.type_class).1.buffer.length + 1 := by
  refine ⟨rfl, ?_, ?_⟩
  · rw [build_buffer]
    simp
  · rw [build_buffer]
    simp

/-- C3: the last instruction of the stub is a `jmp`, and executing it is a
tail transfer: control goes to the address stored in the thread slot
`[THR + slow_type_test_entry_point_offset]` and the machine is otherwise
untouched, so the stack pointer and the stack contents are as before and a
`ret` executed next returns to the address the caller of the stub pushed. -/
theorem BuildOptimizedTypeTestStub_tail_transfer (fastCases : FastCasesEmitter)
    (off : Nat) (s : StubBuild) (m : Machine) (pc pc' : Nat) :
    ∃ last, (BuildOptimizedTypeTestStub fastCases off s).assembler.buffer.getLast? = some last ∧
      exec pc last m = (m, Transfer.jump (m.mem ((m.regs Register.THR + off) % 2 ^ 64))) ∧
      (exec pc last m).1.regs Register.RSP = m.regs Register.RSP ∧
      (exec pc last m).1.mem = m.mem ∧
      (exec pc' Instr.ret (exec pc last m).1).2 = Transfer.ret (m.mem (m.regs Register.RSP)) := by
  refine ⟨Instr.jmp (Address.mk Register.THR off), ?_, rfl, rfl, rfl, rfl⟩
  rw [build_buffer]
  simp

/-- C4: the fallback has no per-type linkage.  For any two calls, whatever
their type, class, hierarchy information, slow stub, assembler or unresolved
calls, the last instruction emitted is the same `jmp` through the fixed slot
`[THR + slow_type_test_entry_point_offset]` (the offset is a constant of the
target, read by a call without arguments); and the code buffer a call leaves
does not depend on its `slow_type_test_stub` argument. -/
theorem BuildOptimizedTypeTestStub_fallback_is_fixed (fastCases : FastCasesEmitter)
    (off : Nat) (s₁ s₂ : StubBuild) (slow : Code) :
    (BuildOptimizedTypeTestStub fastCases off s₁).assembler.buffer.getLast? =
        some (Instr.jmp (Address.mk Register.THR off)) ∧
      (BuildOptimizedTypeTestStub fastCases off s₂).assembler.buffer.getLast? =
        (BuildOptimizedTypeTestStub fastCases off s₁).assembler.buffer.getLast? ∧
      (BuildOptimizedTypeTestStub fastCases off
          { s₁ with slow_type_test_stub := slow }).assembler.buffer =
        (BuildOptimizedTypeTestStub fastCases off s₁).assembler.buffer := by
  refine ⟨?_, ?_, rfl⟩
  · rw [build_buffer]
    simp
  · rw [build_buffer, build_buffer]
    simp

/-- C5: for a sealed class with no subclasses and class identifier 42, the
stub built for its type (not generic, built into an empty buffer) returns
`Accept` for an instance whose class identifier is 42, and for an instance
whose class identifier is 7 it returns `Reject`: the run ends by a `ret` to
the caller with the result register at 0, not by the jump to the slow path. -/
theorem sealed_class_stub_accepts_42_rejects_7 (off : Nat) (s : StubBuild) (m42 m7 : Machine)
    (hbuf : s.assembler.buffer = [])
    (hid : s.type_class.id = 42)
    (hsealed : s.hi.isSealed s.type_class = true)
    (hno : s.hi.classIdRanges s.type_class = [])
    (hargs : s.type.arguments = [])
    (h42 : m42.class_id (m42.regs kInstanceReg) = 42)
    (h7 : m7.class_id (m7.regs kInstanceReg) = 7)
    (hobj : m7.regs kInstanceReg ≠ m7.object_address Object.null) :
    (∃ i m', runStub (BuildOptimizedTypeTestStub BuildOptimizedTypeTestStubFastCases off
          s).assembler.buffer m42 =
        StubExit.returned i (m42.mem (m42.regs Register.RSP)) m' ∧ m'.regs kResultReg = 1) ∧
      (∃ i m', runStub (BuildOptimizedTypeTestStub BuildOptimizedTypeTestStubFastCases off
          s).assembler.buffer m7 =
        StubExit.returned i (m7.mem (m7.regs Register.RSP)) m' ∧ m'.regs kResultReg = 0) := by
  rw [stub_sealed_single off s hbuf hsealed hno hargs, hid]
  by_cases hn : s.type.nullable = true
  · rw [if_pos hn]
    exact ⟨run_nullable_sealed_accept off m42 h42, run_nullable_sealed_reject off m7 h7 hobj⟩
  · rw [if_neg hn]
    exact ⟨run_sealed_accept off m42 h42, run_sealed_reject off m7 h7⟩

/-- C5 at the sealed example type, on an object of class 42 and one of class 7. -/
theorem sealed_class_stub_accepts_42_rejects_7_witness :
    (∃ i m', runStub (BuildOptimizedTypeTestStub BuildOptimizedTypeTestStubFastCases 16
          (exampleBuild exampleSealedType)).assembler.buffer (exampleMachine 1000 42) =
        StubExit.returned i 4242 m' ∧ m'.regs kResultReg = 1) ∧
      (∃ i m', runStub (BuildOptimizedTypeTestStub BuildOptimizedTypeTestStubFastCases 16
          (exampleBuild exampleSealedType)).assembler.buffer (exampleMachine 1000 7) =
        StubExit.returned i 4242 m' ∧ m'.regs kResultReg = 0) :=
  sealed_class_stub_accepts_42_rejects_7 16 (exampleBuild exampleSealedType)
    (exampleMachine 1000 42) (exampleMachine 1000 7) rfl rfl rfl rfl rfl rfl rfl (by decide)

/-- C6, as amended: for a type of an open (non-sealed) class that does not
admit `null`, the stub, built into an empty buffer, is the unconditional jump
to the slow-path entry and nothing else, and its run is one instruction long:
the first instruction executed is that jump, taken with the machine as it was
on entry, no check having been made. -/
theorem open_class_stub_is_only_the_jump (off : Nat) (s : StubBuild) (m : Machine)
    (hbuf : s.assembler.buffer = [])
    (hopen : s.hi.isSealed s.type_class = false)
    (hnn : s.type.nullable = false) :
    (BuildOptimizedTypeTestStub BuildOptimizedTypeTestStubFastCases off s).assembler.buffer =
        [Instr.jmp (Address.mk Register.THR off)] ∧
      run (BuildOptimizedTypeTestStub BuildOptimizedTypeTestStubFastCases off
          s).assembler.buffer 1 0 m =
        StubExit.jumped 0 (m.mem ((m.regs Register.THR + off) % 2 ^ 64)) m := by
  have hcode : (BuildOptimizedTypeTestStub BuildOptimizedTypeTestStubFastCases off
      s).assembler.buffer = [Instr.jmp (Address.mk Register.THR off)] := by
    rw [build_buffer, fastCases_buffer, hbuf, plan_open s.hi s.type_class s.type hopen, hnn]
    rfl
  rw [hcode]
  exact ⟨rfl, rfl⟩

/-- C6 as amended, at the open example type, run on an object of class 99. -/
theorem open_class_stub_is_only_the_jump_witness :
    (BuildOptimizedTypeTestStub BuildOptimizedTypeTestStubFastCases 16
        (exampleBuild exampleOpenType)).assembler.buffer =
        [Instr.jmp (Address.mk Register.THR 16)] ∧
      run (BuildOptimizedTypeTestStub BuildOptimizedTypeTestStubFastCases 16
          (exampleBuild exampleOpenType)).assembler.buffer 1 0 (exampleMachine 1000 99) =
        StubExit.jumped 0 7777 (exampleMachine 1000 99) :=
  open_class_stub_is_only_the_jump 16 (exampleBuild exampleOpenType) (exampleMachine 1000 99)
    rfl rfl rfl

/-- C6 as stated fails for a nullable type: class 99 is open, yet the stub of
its nullable type is not the jump alone.  It starts with the null check, which
is a fast check executed on every object, and on `null` the run ends by a
`ret` with `Accept` at instruction 3 and never reaches the slow path. -/
theorem open_class_nullable_stub_checks_null :
    exampleHierarchy.isSealed (exampleBuild exampleNullableOpenType).type_class = false ∧
      (BuildOptimizedTypeTestStub BuildOptimizedTypeTestStubFastCases 16
          (exampleBuild exampleNullableOpenType)).assembler.buffer =
        nullableOpenClassStub 16 ∧
      (BuildOptimizedTypeTestStub BuildOptimizedTypeTestStubFastCases 16
          (exampleBuild exampleNullableOpenType)).assembler.buffer ≠
        [Instr.jmp (Address.mk Register.THR 16)] ∧
      (∃ m', runStub (BuildOptimizedTypeTestStub BuildOptimizedTypeTestStubFastCases 16
          (exampleBuild exampleNullableOpenType)).assembler.buffer (exampleMachine 0 1) =
        StubExit.returned 3 4242 m' ∧ m'.regs kResultReg = 1) :=
  ⟨rfl, rfl, fun h => absurd (congrArg List.length h) (by decide), ⟨_, rfl, rfl⟩⟩

/-- C7: `BuildOptimizedTypeTestStub` has no side effect beyond the code
buffer.  For every fast-case emitter the type, the class and the slow stub
are the same after the call as before it, and the body writes nothing to the
hierarchy information itself: after the call it is as the fast cases left it.
With the fast cases of the specification, which only read the hierarchy
oracle, the hierarchy information too is the same after the call as before
it. -/
theorem BuildOptimizedTypeTestStub_frame (fastCases : FastCasesEmitter) (off : Nat)
    (s : StubBuild) :
    ((BuildOptimizedTypeTestStub fastCases off s).type = s.type ∧
      (BuildOptimizedTypeTestStub fastCases off s).type_class = s.type_class ∧
      (BuildOptimizedTypeTestStub fastCases off s).slow_type_test_stub =
        s.slow_type_test_stub ∧
      (BuildOptimizedTypeTestStub fastCases off s).hi =
        (fastCases s.assembler s.hi s.type s.type_class).2) ∧
    ((BuildOptimizedTypeTestStub BuildOptimizedTypeTestStubFastCases off s).type = s.type ∧
      (BuildOptimizedTypeTestStub BuildOptimizedTypeTestStubFastCases off s).type_class =
        s.type_class ∧
      (BuildOptimizedTypeTestStub BuildOptimizedTypeTestStubFastCases off s).hi = s.hi ∧
      (BuildOptimizedTypeTestStub BuildOptimizedTypeTestStubFastCases off
        s).slow_type_test_stub = s.slow_type_test_stub) :=
  ⟨⟨rfl, rfl, rfl, rfl⟩, ⟨rfl, rfl, rfl, rfl⟩⟩

/-- C8: the stub never falls off its end.  For every fast-case emitter the
instruction that stands at the end of the fast cases is the `jmp`, so a run
that gets there leaves through it for the slow-path entry stored in the
thread slot.  With the fast cases of the specification, every run of the
instructions the call emitted either ends by a `ret` inside the fast cases or
executes that final `jmp`, the last instruction emitted; no run goes past it,
runs out of steps or leaves any other way. -/
theorem BuildOptimizedTypeTestStub_never_falls_off (fastCases : FastCasesEmitter)
    (off fuel : Nat) (s : StubBuild) (m : Machine) :
    run (BuildOptimizedTypeTestStub fastCases off s).assembler.buffer (fuel + 1)
        (fastCases s.assembler s.hi s.type s.type_class).1.buffer.length m =
      StubExit.jumped (fastCases s.assembler s.hi s.type s.type_class).1.buffer.length
        (m.mem ((m.regs Register.THR + off) % 2 ^ 64)) m ∧
    ((s.emitted (BuildOptimizedTypeTestStub BuildOptimizedTypeTestStubFastCases off
          s)).getLast? = some (Instr.jmp (Address.mk Register.THR off)) ∧
      ((∃ i t m',
          i + 1 < (s.emitted (BuildOptimizedTypeTestStub BuildOptimizedTypeTestStubFastCases
            off s)).length ∧
          runStub (s.emitted (BuildOptimizedTypeTestStub BuildOptimizedTypeTestStubFastCases
            off s)) m = StubExit.returned i t m') ∨
        (∃ m',
          runStub (s.emitted (BuildOptimizedTypeTestStub BuildOptimizedTypeTestStubFastCases
            off s)) m =
            StubExit.jumped
              ((s.emitted (BuildOptimizedTypeTestStub BuildOptimizedTypeTestStubFastCases
                off s)).length - 1)
              (m.mem ((m.regs Register.THR + off) % 2 ^ 64)) m'))) := by
  refine ⟨?_, ?_, ?_⟩
  · rw [build_buffer, run_succ _ _ _ _ (Instr.jmp (Address.mk Register.THR off)) (by simp)]
    rfl
  · rw [emitted_fastCases]
    simp
  · rw [emitted_fastCases]
    have h := run_confined (lower (plan s.hi s.type (s.hi.classInfo s.type_class)))
      (Address.mk Register.THR off) rfl (confined_lower _)
      ((lower (plan s.hi s.type (s.hi.classInfo s.type_class)) ++
        [Instr.jmp (Address.mk Register.THR off)]).length + 1) 0 m (Nat.zero_le _) (by simp)
    rcases h with ⟨i, t, m', hi, hrun⟩ | ⟨m', hrun⟩
    · exact Or.inl ⟨i, t, m', by simpa using hi, hrun⟩
    · refine Or.inr ⟨m', ?_⟩
      simpa [runStub] using hrun

/-- C8 at the nullable type of the open example class: the run on `null` ends
by the `ret` at instruction 3, inside the fast cases, and the run on an object
of class 99 executes the final `jmp` at instruction 4 and leaves for the
slow-path entry 7777 held in the thread slot. -/
theorem BuildOptimizedTypeTestStub_never_falls_off_witness :
    (exampleBuild exampleNullableOpenType).emitted
        (BuildOptimizedTypeTestStub BuildOptimizedTypeTestStubFastCases 16
          (exampleBuild exampleNullableOpenType)) = nullableOpenClassStub 16 ∧
      (∃ m', runStub (nullableOpenClassStub 16) (exampleMachine 0 1) =
        StubExit.returned 3 4242 m') ∧
      (∃ m', runStub (nullableOpenClassStub 16) (exampleMachine 1000 99) =
        StubExit.jumped 4 7777 m') ∧
      run (BuildOptimizedTypeTestStub BuildOptimizedTypeTestStubFastCases 16
          (exampleBuild exampleNullableOpenType)).assembler.buffer 1
          (BuildOptimizedTypeTestStubFastCases (exampleBuild exampleNullableOpenType).assembler
            exampleHierarchy exampleNullableOpenType ⟨99⟩).1.buffer.length
          (exampleMachine 1000 99) =
        StubExit.jumped 4 7777 (exampleMachine 1000 99) :=
  ⟨rfl, ⟨_, rfl⟩, ⟨_, rfl⟩,
   (BuildOptimizedTypeTestStub_never_falls_off BuildOptimizedTypeTestStubFastCases 16 0
     (exampleBuild exampleNullableOpenType) (exampleMachine 1000 99)).1⟩

/-- C9: the call records no unresolved call site: the collection of
unresolved calls is the same after the call as before it. -/
theorem BuildOptimizedTypeTestStub_unresolved_calls (fastCases : FastCasesEmitter)
    (off : Nat) (s : StubBuild) :
    (BuildOptimizedTypeTestStub fastCases off s).unresolved_calls = s.unresolved_calls :=
  rfl

end dart
